import Mathlib

/-!
# Verification of the AMR-NB container framing logic of foo_input_amr

Shallow embedding of `src/foo_amr/foo_input_amr.cpp` (class `input_amr`).

Modelling conventions:
* A byte source is a `List ℕ` of byte values (each in `0..255`) together with an
  explicit read position where needed.  `file::read(buf, n)` returns the number
  of bytes actually read (a short read at end of file is not an error);
  `file::seek` / `file::seek_ex` to a position beyond the end of the file throws
  `exception_io_seek_out_of_range`, which we model by returning `none`.
* The C expression `(id >> 3) & 0x000F` on a byte is modelled by `modeNibble`
  on the byte's unsigned value; `cNibbleSigned` models the same expression on
  the signed `char` value (MSVC `char` is signed, `>>` on a negative value is an
  arithmetic shift, i.e. floor division, and `& 0xF` takes the low four bits of
  the two's-complement representation, i.e. the mathematical residue mod 16).
* The scanning loops of `decode_length` and `decode_seek` are written with an
  explicit fuel argument so that they are structurally recursive; the wrappers
  supply fuel `s.length + 1`, which is enough because every loop iteration
  advances the read position by at least one byte.
* `double` arithmetic (`get_info`, seek-target computation) is modelled over ℚ.
-/

/-- Enum constants from the top of `foo_input_amr.cpp`. -/
def amr_bits_per_sample : ℕ := 8

/-- AMR files are mono. -/
def amr_channels : ℕ := 1

/-- AMR files are ~8000 Hz. -/
def amr_sample_rate : ℕ := 8000

/-- An AMR frame is 20 ms long. -/
def amr_frame_sample_length : ℕ := 20

/-- `amr_audio_frame_size = amr_frame_sample_length * amr_bits_per_sample`. -/
def amr_audio_frame_size : ℕ := amr_frame_sample_length * amr_bits_per_sample

/-- `short input_amr::m_block_size[] = {12,13,15,17,19,20,26,31,5,0,0,0,0,0,0,0}`. -/
def m_block_size : List ℕ := [12, 13, 15, 17, 19, 20, 26, 31, 5, 0, 0, 0, 0, 0, 0, 0]

/-- `const char* input_amr::m_magic = "#!AMR\x0a"` (6 bytes). -/
def m_magic : List ℕ := [0x23, 0x21, 0x41, 0x4D, 0x52, 0x0A]

/-- `const unsigned input_amr::m_start = 7`: the absolute offset the scanners
seek to before reading frames. -/
def m_start : ℕ := 7

/-- `(b >> 3) & 0x000F` for the unsigned value `b` of the byte. -/
def modeNibble (b : ℕ) : ℕ := (b / 8) % 16

/-- `(v >> 3) & 0x000F` for the signed `char` value `v ∈ [-128, 127]`:
arithmetic shift right by 3 is floor division by 8, and masking with `0xF`
takes the low 4 bits of the two's-complement representation, which is the
mathematical residue mod 16. -/
def cNibbleSigned (v : ℤ) : ℤ := (Int.fdiv v 8) % 16

/-- The signed `char` value of a byte. -/
def toSignedChar (b : ℕ) : ℤ := if 128 ≤ b then (b : ℤ) - 256 else (b : ℤ)

/-- `m_block_size[(b >> 3) & 0x000F]`: payload length for the frame whose mode
byte has unsigned value `b`. -/
def blockSize (b : ℕ) : ℕ := m_block_size.getD (modeNibble b) 0

/-- The loop of `input_amr::decode_length`, scanning from position `pos`:
read one byte (stop normally when the read fails at end of stream), look up the
payload length from the mode nibble, `seek_ex` that many bytes forward (`none`
models the `exception_io_seek_out_of_range` thrown when the target position
exceeds the file length), and count one frame.  `fuel` only serves termination;
the wrappers supply enough for the loop to run to completion. -/
def countAux (s : List ℕ) : ℕ → ℕ → Option ℕ
  | 0, _ => none
  | fuel + 1, pos =>
    if pos < s.length then
      let size := blockSize (s.getD pos 0)
      if pos + 1 + size ≤ s.length then
        (countAux s fuel (pos + 1 + size)).map (· + 1)
      else none
    else some 0

/-- `input_amr::decode_length`: seek to `m_start` (throws, i.e. `none`, when the
file is shorter than `m_start` bytes), scan counting frames, seek back to 0. -/
def decode_length (s : List ℕ) : Option ℕ :=
  if m_start ≤ s.length then countAux s (s.length + 1) m_start else none

/-- The loop of `input_amr::decode_seek`: `while (read(&id) && m_frame < target)`.
The read happens first (consuming one byte even on the exiting iteration); the
loop stops when the read fails (position unchanged) or when `m_frame` has
reached `target` (position one past the byte just read).  Returns the final
`(position, m_frame)`; `none` models a seek exception. -/
def seekAux (s : List ℕ) : ℕ → ℕ → ℕ → ℕ → Option (ℕ × ℕ)
  | 0, _, _, _ => none
  | fuel + 1, pos, frame, target =>
    if pos < s.length then
      if frame < target then
        let size := blockSize (s.getD pos 0)
        if pos + 1 + size ≤ s.length then
          seekAux s fuel (pos + 1 + size) (frame + 1) target
        else none
      else some (pos + 1, frame)
    else some (pos, frame)

/-- The body of `input_amr::decode_seek` after the target frame index has been
computed: seek to `m_start`, reset `m_frame` to 0, run the scan loop. -/
def seekToFrame (s : List ℕ) (target : ℕ) : Option (ℕ × ℕ) :=
  if m_start ≤ s.length then seekAux s (s.length + 1) m_start 0 target else none

/-- Modelled from the spec: `audio_math::time_to_samples` belongs to the host
SDK, whose source is not in the repository; the spec describes the seek-target
computation as a floor conversion of time to sample count
(`targetFrame = floor(seconds * sampleRate / samplesPerFrame)`), so the sample
conversion is modelled as `⌊seconds * rate⌋`. -/
def time_to_samples (seconds : ℚ) (rate : ℕ) : ℕ := ⌊seconds * rate⌋₊

/-- `audio_math::time_to_samples(p_seconds, amr_sample_rate) / amr_audio_frame_size`
(integer division), the target frame computed by `input_amr::decode_seek`. -/
def targetFrame (seconds : ℚ) : ℕ :=
  time_to_samples seconds amr_sample_rate / amr_audio_frame_size

/-- `input_amr::decode_seek`: compute the target frame from the requested time,
then scan to it.  Returns the final `(position, m_frame)`. -/
def decode_seek (s : List ℕ) (seconds : ℚ) : Option (ℕ × ℕ) :=
  seekToFrame s (targetFrame seconds)

/-- `input_amr::is_amr`, called with the read position at `pos`: read 5 bytes
into `head` (the read returns how many bytes were available, short reads are
not errors), seek back to 0, and return whether the read got all 5 bytes and
`memcmp(head, m_magic, 5)` found them equal to the first 5 magic bytes.
Returns `(result, position after the call)`; the position is always 0. -/
def is_amr (s : List ℕ) (pos : ℕ) : Bool × ℕ :=
  let head := (s.drop pos).take 5
  ((head.length = 5 && head = m_magic.take 5 : Bool), 0)

/-- The duration reported by `input_amr::get_info`:
`(double)m_frames * amr_audio_frame_size / amr_sample_rate`, with the `double`
arithmetic modelled exactly over ℚ. -/
def get_info_length (m_frames : ℕ) : ℚ :=
  (m_frames : ℚ) * (amr_audio_frame_size : ℚ) / (amr_sample_rate : ℚ)

/-- `t_input_open_reason` values of the host SDK relevant to `input_amr::open`. -/
inductive OpenReason
  | info_read
  | decode
  | info_write
  deriving DecidableEq

/-- Errors thrown by the plugin: `exception_io_unsupported_format` for
write/retag, or an I/O error surfaced by the scan. -/
inductive AmrError
  | unsupported_format
  | io_error
  deriving DecidableEq

/-- `input_amr::open`: the very first statement throws
`exception_io_unsupported_format` when the open reason is
`input_open_info_write`, before the file object is stored or touched;
otherwise the file is opened and `m_frames` is set to `decode_length`. -/
def openInput (s : List ℕ) (reason : OpenReason) : Except AmrError ℕ :=
  if reason = OpenReason.info_write then Except.error AmrError.unsupported_format
  else match decode_length s with
    | some frames => Except.ok frames
    | none => Except.error AmrError.io_error

/-- `input_amr::retag`: unconditionally throws
`exception_io_unsupported_format`, whatever the supplied file info is. -/
def retag (p_info : List (String × String)) : Except AmrError Unit :=
  Except.error AmrError.unsupported_format

/-- The mutable decode-session state used by `input_amr::decode_run`:
read position, `m_frame`, `m_frames`, and `m_buffer[0]` (which keeps its stale
value when a read at end of stream returns 0 bytes). -/
structure DecodeState where
  pos : ℕ
  frame : ℕ
  frames : ℕ
  buf0 : ℕ
  deriving DecidableEq, Repr

/-- `input_amr::decode_run`: if `m_frame >= m_frames`, return `false` at once;
otherwise read the mode byte into `m_buffer[0]` (a read at end of stream
returns 0 bytes and leaves the buffer stale), look up the payload size, read
that many payload bytes (short reads possible), call the external decoder,
and advance `m_frame`.  Returns
`(hasMore, new state, bytes read from the source, decoder invoked?)`. -/
def decode_run (s : List ℕ) (st : DecodeState) : Bool × DecodeState × ℕ × Bool :=
  if st.frames ≤ st.frame then (false, st, 0, false)
  else
    let first : ℕ × ℕ × ℕ :=
      if st.pos < s.length then (s.getD st.pos 0, st.pos + 1, 1)
      else (st.buf0, st.pos, 0)
    let b0 := first.1
    let pos1 := first.2.1
    let read1 := first.2.2
    let size := blockSize b0
    let read2 := min size (s.length - pos1)
    (true,
     { pos := pos1 + read2, frame := st.frame + 1, frames := st.frames, buf0 := b0 },
     read1 + read2,
     true)

/-! ## Concrete streams used as inputs -/

/-- A well-formed one-frame stream: the 6-byte magic followed by a single
mode-8 frame (mode byte `0x44`, whose mode nibble is 8, plus the 5 payload
bytes `0x48 …` required by the table).  Here `K = 1`. -/
def exOneFrame : List ℕ := m_magic ++ [0x44, 0x48, 0x48, 0x48, 0x48, 0x48]

/-- The synthetic three-frame stream of the spec's round-trip scenario:
magic, then frames with modes 0 (mode byte `0x04`, 12-byte payload),
7 (mode byte `0x3C`, 31-byte payload) and 8 (mode byte `0x44`, 5-byte
payload); every payload byte is `0x04`.  Frame mode bytes sit at offsets
6, 19 and 51; total length 57. -/
def exThreeFrames : List ℕ :=
  m_magic ++ (0x04 :: List.replicate 12 0x04)
          ++ (0x3C :: List.replicate 31 0x04)
          ++ (0x44 :: List.replicate 5 0x04)

/-- A buffer whose first 5 bytes are `"#!AMR"` but whose 6th byte is `0x58`
(`'X'`), not the `0x0A` the 6-byte magic requires. -/
def exBadSixth : List ℕ := [0x23, 0x21, 0x41, 0x4D, 0x52, 0x58]

/-- Magic followed by three bytes of mode nibble 9 (`0x48`), each a 0-payload
"frame" for the scanner.  Scanning from offset 7 sees 2 such frames. -/
def exNineNine : List ℕ := m_magic ++ [0x48, 0x48, 0x48]

/-- `unsigned char m_buffer[32]`: the frame buffer of `decode_run`. -/
def m_buffer_size : ℕ := 32

/-! ## Helper lemmas -/

/-- Any mode nibble of 9 or more selects a 0-byte payload (entries 9–15 of the
table are 0, and an index past the table would take the lookup default 0;
in fact the nibble is always below 16). -/
lemma blockSize_of_nibble_ge_nine (b : ℕ) (h9 : 9 ≤ modeNibble b) :
    blockSize b = 0 := by
  have h16 : modeNibble b < 16 := Nat.mod_lt _ (by norm_num)
  obtain ⟨k, hk⟩ : ∃ k, modeNibble b = k := ⟨_, rfl⟩
  rw [hk] at h9 h16
  unfold blockSize
  rw [hk]
  interval_cases k <;> rfl

/-- When the counting scan from position `pos` terminates normally having
counted `F` frames, the seek loop started at the same position with frame
accumulator `frame ≤ target` stops with its frame counter advanced by
`min (target - frame) F`: both loops read the same mode bytes and skip with
the same table, so they visit the same frame boundaries. -/
lemma seekAux_of_countAux (s : List ℕ) :
    ∀ fuel pos frame target F, frame ≤ target →
      countAux s fuel pos = some F →
      ∃ p, seekAux s fuel pos frame target =
        some (p, frame + min (target - frame) F) := by
  intro fuel
  induction fuel with
  | zero =>
    intro pos frame target F _ hc
    simp [countAux] at hc
  | succ fuel ih =>
    intro pos frame target F hft hc
    simp only [countAux] at hc
    by_cases h : pos < s.length
    · rw [if_pos h] at hc
      by_cases hle : pos + 1 + blockSize (s.getD pos 0) ≤ s.length
      · rw [if_pos hle] at hc
        cases hcc : countAux s fuel (pos + 1 + blockSize (s.getD pos 0)) with
        | none => rw [hcc] at hc; simp at hc
        | some F' =>
          rw [hcc] at hc
          simp only [Option.map_some'] at hc
          obtain rfl : F' + 1 = F := by injection hc
          by_cases hlt : frame < target
          · obtain ⟨p, hp⟩ := ih (pos + 1 + blockSize (s.getD pos 0))
              (frame + 1) target F' hlt hcc
            refine ⟨p, ?_⟩
            simp only [seekAux]
            rw [if_pos h, if_pos hlt, if_pos hle, hp]
            have harith : frame + 1 + min (target - (frame + 1)) F' =
                frame + min (target - frame) (F' + 1) := by omega
            rw [harith]
          · refine ⟨pos + 1, ?_⟩
            simp only [seekAux]
            rw [if_pos h, if_neg hlt]
            have harith : frame + min (target - frame) (F' + 1) = frame := by
              omega
            rw [harith]
      · rw [if_neg hle] at hc
        exact absurd hc (by simp)
    · rw [if_neg h] at hc
      obtain rfl : (0 : ℕ) = F := by injection hc
      refine ⟨pos, ?_⟩
      simp only [seekAux]
      rw [if_neg h]
      have harith : frame + min (target - frame) 0 = frame := by omega
      rw [harith]

/-- Wrapper-level agreement: whenever `decode_length` returns `F`, the seek
scan with any target stops with `m_frame = min target F`. -/
lemma seekToFrame_of_decode_length (s : List ℕ) (target F : ℕ)
    (hF : decode_length s = some F) :
    ∃ p, seekToFrame s target = some (p, min target F) := by
  unfold decode_length at hF
  by_cases hs : m_start ≤ s.length
  · rw [if_pos hs] at hF
    obtain ⟨p, hp⟩ :=
      seekAux_of_countAux s (s.length + 1) m_start 0 target F (Nat.zero_le _) hF
    have harith : 0 + min (target - 0) F = min target F := by omega
    rw [harith] at hp
    refine ⟨p, ?_⟩
    unfold seekToFrame
    rw [if_pos hs, hp]
  · rw [if_neg hs] at hF
    exact absurd hF (by simp)

/-! ## Claim theorems -/

/-- Claim C1 (refuted; code bug): the frame-count scan does NOT start at the
byte immediately after the 6-byte header.  `m_start` is 7, one past the end of
the header (offsets 0–5), so the scan begins inside the first frame's payload.
On the well-formed one-frame stream `exOneFrame` (magic plus one valid mode-8
frame, so `K = 1`), `decode_length` returns 5; the same scan started at the
correct offset 6 returns 1. -/
theorem decode_length_miscounts_after_header :
    decode_length exOneFrame = some 5 ∧
    countAux exOneFrame (exOneFrame.length + 1) 6 = some 1 ∧
    m_magic.length = 6 ∧ m_start = 7 := by decide

/-- Claim C2 (refuted; code bug): on the spec's synthetic three-frame stream
with modes {0, 7, 8}, the third frame's mode byte sits at offset 51, but the
seek scan with target 2 stops at position 34 (it starts at offset 7 instead of
6 and its loop consumes the mode byte of the frame it stops at), so the source
is not positioned at the target frame's mode byte. -/
theorem decode_seek_lands_past_target_mode_byte :
    seekToFrame exThreeFrames 2 = some (34, 2) ∧
    exThreeFrames.getD 51 0 = 0x44 ∧
    exThreeFrames.length = 57 ∧
    (34 : ℕ) ≠ 51 := by decide

/-- Claim C3 (refuted; code bug): the probe compares only the first 5 bytes
against the magic, not all 6.  A buffer whose 6th byte is `0x58` instead of
`0x0A` is accepted, and so is a 5-byte buffer even though fewer than 6 bytes
are available. -/
theorem is_amr_checks_only_five_bytes :
    is_amr exBadSixth 0 = (true, 0) ∧
    exBadSixth.take 6 ≠ m_magic ∧
    is_amr (m_magic.take 5) 0 = (true, 0) ∧
    (m_magic.take 5).length < 6 := by decide

/-- Claim C4: for every frame count, the duration reported by `get_info`
equals `frameCount * 160 / 8000` exactly. -/
theorem get_info_duration_formula (m_frames : ℕ) :
    get_info_length m_frames = (m_frames : ℚ) * 160 / 8000 := by
  unfold get_info_length amr_audio_frame_size amr_frame_sample_length
    amr_bits_per_sample amr_sample_rate
  norm_num

/-- Claim C5: for every nonnegative requested time, the target frame index
computed by `decode_seek` is `⌊seconds * 8000 / 160⌋`, and after the seek the
current frame index `m_frame` is exactly the target when the target is within
the stream and clamped to the total frame count when end of stream is hit
first, i.e. `min target frameCount`. -/
theorem decode_seek_target_floor_and_clamp (s : List ℕ) (F : ℕ) (q : ℚ)
    (hq : 0 ≤ q) (hF : decode_length s = some F) :
    targetFrame q = ⌊q * 8000 / 160⌋₊ ∧
    ∃ p, decode_seek s q = some (p, min (targetFrame q) F) := by
  constructor
  · unfold targetFrame time_to_samples amr_sample_rate amr_audio_frame_size
      amr_frame_sample_length amr_bits_per_sample
    rw [show (160 : ℚ) = ((160 : ℕ) : ℚ) by norm_num, Nat.floor_div_nat]
    norm_num
  · exact seekToFrame_of_decode_length s (targetFrame q) F hF

/-- Witness for C5 at the concrete stream `exNineNine` (frame count 2) and
requested time 1/10 s (target frame 5, clamped to 2). -/
theorem decode_seek_target_floor_and_clamp_witness :
    (0 : ℚ) ≤ 1 / 10 ∧ decode_length exNineNine = some 2 ∧
    (targetFrame (1 / 10) = ⌊(1 / 10 : ℚ) * 8000 / 160⌋₊ ∧
      ∃ p, decode_seek exNineNine (1 / 10) =
        some (p, min (targetFrame (1 / 10)) 2)) :=
  ⟨by norm_num, by decide,
    decode_seek_target_floor_and_clamp exNineNine 2 (1 / 10) (by norm_num)
      (by decide)⟩

/-- Claim C6: whenever the current frame index has reached the total frame
count, `decode_run` returns `hasMore = false` immediately: no byte is read
from the source, the external decoder is not invoked, and the whole decode
state (including `m_frame`) is unchanged. -/
theorem decode_run_exhausted (s : List ℕ) (st : DecodeState)
    (h : st.frames ≤ st.frame) :
    decode_run s st = (false, st, 0, false) := by
  unfold decode_run
  rw [if_pos h]

/-- Witness for C6: a state whose frame index equals its frame count. -/
theorem decode_run_exhausted_witness :
    DecodeState.frames ⟨0, 3, 3, 0⟩ ≤ DecodeState.frame ⟨0, 3, 3, 0⟩ ∧
    decode_run [] ⟨0, 3, 3, 0⟩ = (false, ⟨0, 3, 3, 0⟩, 0, false) :=
  ⟨by decide, decode_run_exhausted [] ⟨0, 3, 3, 0⟩ (by decide)⟩

/-- Claim C7: a mode nibble of 9–15 selects a 0-byte payload, and both the
counting scan and the seek scan then advance exactly one byte (the mode byte)
and count exactly one more visited frame; a mode-8 byte likewise selects a
5-byte payload and the counting scan advances 6 bytes counting one frame. -/
theorem reserved_and_sid_modes_step (b : ℕ) (s : List ℕ)
    (fuel pos frame target : ℕ) (hpos : pos < s.length) :
    (9 ≤ modeNibble b → blockSize b = 0) ∧
    (modeNibble b = 8 → blockSize b = 5) ∧
    (blockSize (s.getD pos 0) = 0 →
      countAux s (fuel + 1) pos = (countAux s fuel (pos + 1)).map (· + 1)) ∧
    (blockSize (s.getD pos 0) = 0 → frame < target →
      seekAux s (fuel + 1) pos frame target =
        seekAux s fuel (pos + 1) (frame + 1) target) ∧
    (blockSize (s.getD pos 0) = 5 → pos + 6 ≤ s.length →
      countAux s (fuel + 1) pos = (countAux s fuel (pos + 6)).map (· + 1)) := by
  refine ⟨blockSize_of_nibble_ge_nine b, ?_, ?_, ?_, ?_⟩
  · intro h8
    unfold blockSize
    rw [h8]
    rfl
  · intro h0
    simp only [countAux]
    rw [if_pos hpos, h0]
    have hle : pos + 1 + 0 ≤ s.length := by omega
    rw [if_pos hle, show pos + 1 + 0 = pos + 1 from by omega]
  · intro h0 hlt
    simp only [seekAux]
    rw [if_pos hpos, if_pos hlt, h0]
    have hle : pos + 1 + 0 ≤ s.length := by omega
    rw [if_pos hle, show pos + 1 + 0 = pos + 1 from by omega]
  · intro h5 h6
    simp only [countAux]
    rw [if_pos hpos, h5]
    have hle : pos + 1 + 5 ≤ s.length := by omega
    rw [if_pos hle, show pos + 1 + 5 = pos + 6 from by omega]

/-- Witness for C7 at the stream `exNineNine`: position 7 holds the byte
`0x48` (mode nibble 9), and one counting step from there advances exactly one
byte and adds exactly one frame. -/
theorem reserved_and_sid_modes_step_witness :
    (7 : ℕ) < exNineNine.length ∧
    countAux exNineNine (3 + 1) 7 = (countAux exNineNine 3 (7 + 1)).map (· + 1) :=
  ⟨by decide,
    (reserved_and_sid_modes_step 0x48 exNineNine 3 7 0 3 (by decide)).2.2.1
      (by decide)⟩

/-- Claim C8: opening with the write reason fails with unsupported-format
whatever the file contents are (the check is the first statement of `open`),
and `retag` fails with unsupported-format whatever its argument is; neither
ever succeeds silently. -/
theorem open_write_and_retag_fail :
    (∀ s : List ℕ,
      openInput s OpenReason.info_write =
        Except.error AmrError.unsupported_format) ∧
    (∀ p_info : List (String × String),
      retag p_info = Except.error AmrError.unsupported_format) :=
  ⟨fun _ => rfl, fun _ => rfl⟩

/-- Claim C9: the counting scan and the seek scan use the identical 16-entry
mode-to-length table, and on any stream on which the count scan returns `F`,
the seek scan with any target visits the same frame boundaries and stops with
`m_frame = min target F`, so duration and seek agree. -/
theorem scans_use_same_table_and_agree :
    m_block_size = [12, 13, 15, 17, 19, 20, 26, 31, 5, 0, 0, 0, 0, 0, 0, 0] ∧
    ∀ (s : List ℕ) (target F : ℕ), decode_length s = some F →
      ∃ p, seekToFrame s target = some (p, min target F) :=
  ⟨rfl, fun s target F hF => seekToFrame_of_decode_length s target F hF⟩

/-- Witness for C9 at the stream `exNineNine` (count 2) and target 7. -/
theorem scans_use_same_table_and_agree_witness :
    decode_length exNineNine = some 2 ∧
    ∃ p, seekToFrame exNineNine 7 = some (p, min 7 2) :=
  ⟨by decide, scans_use_same_table_and_agree.2 exNineNine 7 2 (by decide)⟩

set_option maxRecDepth 4096

/-- Claim C10: for every possible mode byte value, the table index
`(byte >> 3) & 0xF` is below 16 (in particular within the 16-entry table) —
and the signed-char reading of the same C expression yields the same index —
and one mode byte plus the table payload length always fits in the 32-byte
`m_buffer`. -/
theorem mode_table_always_in_bounds_and_fits_buffer :
    ∀ b : Fin 256,
      modeNibble b.val < 16 ∧
      modeNibble b.val < m_block_size.length ∧
      1 + blockSize b.val ≤ m_buffer_size ∧
      cNibbleSigned (toSignedChar b.val) = (modeNibble b.val : ℤ) := by decide
